import Mathlib

/-!
Verification development for the `tracing-span-dump` crate (`src/lib.rs`).

The crate keeps a live registry of currently-open tracing spans:
`SpanSnapshot` is a map from span id to `SpanRecord`, and `SpanDumpLayer`
holds an `Arc<RwLock<SpanSnapshot>>` shared cell that the `tracing`
lifecycle hooks mutate.  We embed the map as a key-unique association
list (a `HashMap` insert replaces the entry at the key; a remove deletes
it), the shared cell as an address into a heap of snapshots (so that a
cloned layer handle, which clones the `Arc`, is the same address), and
the hook surface as explicit state-passing functions on the heap.
-/

namespace TracingSpanDump

/-- `span::Id` from the `tracing` crate: an opaque numeric span identifier. -/
abbrev SpanId := Nat

/-- `tracing::Metadata`: static call-site metadata.  The registry only
stores a reference to it; the tests inspect its `name`. -/
structure Metadata where
  name : String
deriving DecidableEq, Repr

/-- `SpanRecord` from `src/lib.rs`: one currently-open span
(`id`, optional `parent`, `metadata` reference). -/
structure SpanRecord where
  id : SpanId
  parent : Option SpanId
  metadata : Metadata
deriving DecidableEq, Repr

/-- The part of `span::Attributes` the layer reads: `attrs.parent()`
and `attrs.metadata()`. -/
structure Attributes where
  parent : Option SpanId
  metadata : Metadata
deriving DecidableEq, Repr

/-- `SpanSnapshot`: the `HashMap<span::Id, SpanRecord>`, embedded as an
association list whose reachable states keep keys unique. -/
structure SpanSnapshot where
  spans : List (SpanId × SpanRecord)
deriving DecidableEq, Repr

instance : Inhabited SpanSnapshot := ⟨⟨[]⟩⟩

namespace SpanSnapshot

/-- `Default::default()` for `SpanSnapshot`: the empty map. -/
def mkDefault : SpanSnapshot := ⟨[]⟩

/-- `HashMap::get` on the embedded map. -/
def lookup (s : SpanSnapshot) (id : SpanId) : Option SpanRecord :=
  s.spans.lookup id

/-- `HashMap::contains_key` on the embedded map. -/
def containsId (s : SpanSnapshot) (id : SpanId) : Bool :=
  (s.lookup id).isSome

/-- `open_spans`: iteration over the stored records (order irrelevant). -/
def open_spans (s : SpanSnapshot) : List SpanRecord :=
  s.spans.map Prod.snd

/-- `dump_text(&self)`: the body is entirely commented out, so it reads
the snapshot immutably, prints nothing and returns unit.  We return the
(unchanged) receiver together with the list of printed lines. -/
def dump_text (s : SpanSnapshot) : SpanSnapshot × List String :=
  (s, [])

/-- `new_span`: `self.spans.insert(id, SpanRecord { id, parent:
attrs.parent().cloned(), metadata: attrs.metadata() })` — a `HashMap`
insert replaces any existing entry at `id`. -/
def new_span (s : SpanSnapshot) (attrs : Attributes) (id : SpanId) : SpanSnapshot :=
  ⟨(id, ⟨id, attrs.parent, attrs.metadata⟩) :: s.spans.filter (fun p => p.1 != id)⟩

/-- `close_span`: `self.spans.remove(&id)`. -/
def close_span (s : SpanSnapshot) (id : SpanId) : SpanSnapshot :=
  ⟨s.spans.filter (fun p => p.1 != id)⟩

/-- `#[derive(Clone)]` on `SpanSnapshot`: a deep copy of the map. -/
def clone (s : SpanSnapshot) : SpanSnapshot := s

end SpanSnapshot

/-- The store backing the `Arc<RwLock<SpanSnapshot>>` cells: a heap
mapping addresses to snapshots.  Writers serialize on the lock, so a
hook call is a pure update of the addressed cell. -/
def Heap := Nat → SpanSnapshot

/-- Read the cell at address `a`. -/
def Heap.get (h : Heap) (a : Nat) : SpanSnapshot := h a

/-- Overwrite the cell at address `a`. -/
def Heap.set (h : Heap) (a : Nat) (s : SpanSnapshot) : Heap :=
  fun b => if b = a then s else h b

/-- A heap of freshly initialized (empty) cells. -/
def Heap.empty : Heap := fun _ => ⟨[]⟩

/-- `SpanDumpLayer`: holds `spans: Arc<RwLock<SpanSnapshot>>`, embedded
as the address of the shared cell. -/
structure SpanDumpLayer where
  spans : Nat

namespace SpanDumpLayer

/-- `SpanDumpLayer::new()`: allocate a cell at address `a` holding
`Default::default()`. -/
def new (a : Nat) (h : Heap) : SpanDumpLayer × Heap :=
  (⟨a⟩, h.set a SpanSnapshot.mkDefault)

/-- `#[derive(Clone)]` on `SpanDumpLayer`: clones the `Arc`, i.e. the
new handle aliases the same cell. -/
def clone (l : SpanDumpLayer) : SpanDumpLayer := ⟨l.spans⟩

/-- `snapshot()`: read-lock the cell and return a clone of its contents. -/
def snapshot (l : SpanDumpLayer) (h : Heap) : SpanSnapshot :=
  (h.get l.spans).clone

/-- `Layer::enabled`: always `true`. -/
def enabled (_l : SpanDumpLayer) (_m : Metadata) : Bool := true

/-- `Layer::event_enabled`: always `true`. -/
def event_enabled (_l : SpanDumpLayer) : Bool := true

/-- `Layer::on_new_span`: write-lock the cell and run `new_span`. -/
def on_new_span (l : SpanDumpLayer) (attrs : Attributes) (id : SpanId) (h : Heap) : Heap :=
  h.set l.spans ((h.get l.spans).new_span attrs id)

/-- `Layer::on_close`: write-lock the cell and run `close_span`. -/
def on_close (l : SpanDumpLayer) (id : SpanId) (h : Heap) : Heap :=
  h.set l.spans ((h.get l.spans).close_span id)

/-- `Layer::on_record`: empty body. -/
def on_record (_l : SpanDumpLayer) (_id : SpanId) (h : Heap) : Heap := h

/-- `Layer::on_follows_from`: empty body. -/
def on_follows_from (_l : SpanDumpLayer) (_id _follows : SpanId) (h : Heap) : Heap := h

/-- `Layer::on_event`: empty body. -/
def on_event (_l : SpanDumpLayer) (h : Heap) : Heap := h

/-- `Layer::on_enter`: empty body. -/
def on_enter (_l : SpanDumpLayer) (_id : SpanId) (h : Heap) : Heap := h

/-- `Layer::on_exit`: empty body. -/
def on_exit (_l : SpanDumpLayer) (_id : SpanId) (h : Heap) : Heap := h

/-- `Layer::on_id_change`: empty body. -/
def on_id_change (_l : SpanDumpLayer) (_old _new : SpanId) (h : Heap) : Heap := h

end SpanDumpLayer

/-- One lifecycle notification delivered to the layer. -/
inductive Event where
  | newSpan (attrs : Attributes) (id : SpanId)
  | close (id : SpanId)
  | enter (id : SpanId)
  | exit (id : SpanId)
  | record (id : SpanId)
  | followsFrom (id follows : SpanId)
  | fireEvent
  | idChange (old new : SpanId)
deriving DecidableEq, Repr

/-- Dispatch one notification to the corresponding hook of the layer. -/
def SpanDumpLayer.handle (l : SpanDumpLayer) (h : Heap) (e : Event) : Heap :=
  match e with
  | .newSpan attrs id => l.on_new_span attrs id h
  | .close id => l.on_close id h
  | .enter id => l.on_enter id h
  | .exit id => l.on_exit id h
  | .record id => l.on_record id h
  | .followsFrom id follows => l.on_follows_from id follows h
  | .fireEvent => l.on_event h
  | .idChange o n => l.on_id_change o n h

/-- Deliver a serialized sequence of notifications. -/
def SpanDumpLayer.run (l : SpanDumpLayer) (h : Heap) (evs : List Event) : Heap :=
  evs.foldl l.handle h

/-- The effect of one notification on the guarded `SpanSnapshot` cell:
`on_new_span` inserts, `on_close` removes, every other hook is a no-op. -/
def cellStep (s : SpanSnapshot) (e : Event) : SpanSnapshot :=
  match e with
  | .newSpan attrs id => s.new_span attrs id
  | .close id => s.close_span id
  | _ => s

/-- A caller-visible step: either a lifecycle notification delivered to the
layer, or a caller calling `snapshot()` and retaining the returned clone. -/
inductive Action where
  | notify (e : Event)
  | takeSnapshot
deriving Repr

/-- The shared heap together with the clones callers have taken via
`snapshot()` and retained. -/
structure World where
  heap : Heap
  taken : List SpanSnapshot

/-- One world step: a notification updates only the heap; `snapshot()`
appends the returned clone to the retained list and leaves the heap alone. -/
def SpanDumpLayer.stepWorld (l : SpanDumpLayer) (w : World) (a : Action) : World :=
  match a with
  | .notify e => ⟨l.handle w.heap e, w.taken⟩
  | .takeSnapshot => ⟨w.heap, w.taken ++ [l.snapshot w.heap]⟩

/-- Run a sequence of caller-visible steps. -/
def SpanDumpLayer.runWorld (l : SpanDumpLayer) (w : World) (acts : List Action) :
    World :=
  acts.foldl l.stepWorld w

/-- Number of entries stored under a given key. -/
def SpanSnapshot.countKey (s : SpanSnapshot) (id : SpanId) : Nat :=
  s.spans.countP (fun p => p.1 == id)

/-- A direct mutation of the guarded `SpanSnapshot`: the two operations its
private interface offers. -/
inductive SpanOp where
  | create (attrs : Attributes) (id : SpanId)
  | close (id : SpanId)
deriving DecidableEq, Repr

/-- Apply one mutation. -/
def SpanSnapshot.applyOp (s : SpanSnapshot) (op : SpanOp) : SpanSnapshot :=
  match op with
  | .create attrs id => s.new_span attrs id
  | .close id => s.close_span id

/-- Apply a sequence of mutations. -/
def SpanSnapshot.runOps (s : SpanSnapshot) (ops : List SpanOp) : SpanSnapshot :=
  ops.foldl SpanSnapshot.applyOp s

/-- Well-formedness of the embedded map: every record is stored under its own
id, and keys are unique (each key maps to at most one record). -/
def SpanSnapshot.WF (s : SpanSnapshot) : Prop :=
  (∀ p ∈ s.spans, p.2.id = p.1) ∧ (s.spans.map Prod.fst).Nodup

section HelperLemmas

open SpanSnapshot

lemma Heap.get_set_self (h : Heap) (a : Nat) (s : SpanSnapshot) :
    (h.set a s).get a = s := by
  simp [Heap.get, Heap.set]

lemma lookup_filterKeyNe_self (xs : List (SpanId × SpanRecord)) (b : SpanId) :
    (xs.filter (fun p => p.1 != b)).lookup b = none := by
  induction xs with
  | nil => rfl
  | cons x xs ih =>
    obtain ⟨k, v⟩ := x
    by_cases hx : k = b
    · simp [List.filter_cons, hx, ih]
    · have h1 : (k != b) = true := by simpa using hx
      have h2 : (b == k) = false := by simp [Ne.symm hx]
      simp [List.filter_cons, h1, List.lookup_cons, h2, ih]

lemma lookup_filterKeyNe_ne (xs : List (SpanId × SpanRecord)) (a b : SpanId)
    (hab : a ≠ b) :
    (xs.filter (fun p => p.1 != b)).lookup a = xs.lookup a := by
  induction xs with
  | nil => rfl
  | cons x xs ih =>
    obtain ⟨k, v⟩ := x
    by_cases hx : k = b
    · have h1 : (k != b) = false := by simp [hx]
      have h2 : (a == k) = false := by simp [hx]; exact hab
      simp [List.filter_cons, h1, List.lookup_cons, h2, ih]
    · have h1 : (k != b) = true := by simpa using hx
      by_cases hak : a = k
      · simp [List.filter_cons, h1, List.lookup_cons, hak]
      · have h2 : (a == k) = false := by simp [hak]
        simp [List.filter_cons, h1, List.lookup_cons, h2, ih]

lemma lookup_new_span_self (s : SpanSnapshot) (attrs : Attributes) (id : SpanId) :
    (s.new_span attrs id).lookup id = some ⟨id, attrs.parent, attrs.metadata⟩ := by
  simp [new_span, SpanSnapshot.lookup, List.lookup_cons]

lemma lookup_new_span_ne (s : SpanSnapshot) (attrs : Attributes) (id a : SpanId)
    (hab : a ≠ id) :
    (s.new_span attrs id).lookup a = s.lookup a := by
  have h2 : (a == id) = false := by simp [hab]
  simp [new_span, SpanSnapshot.lookup, List.lookup_cons, h2,
    lookup_filterKeyNe_ne s.spans a id hab]

lemma lookup_close_span_self (s : SpanSnapshot) (id : SpanId) :
    (s.close_span id).lookup id = none := by
  simp [close_span, SpanSnapshot.lookup, lookup_filterKeyNe_self]

lemma lookup_close_span_ne (s : SpanSnapshot) (id a : SpanId) (hab : a ≠ id) :
    (s.close_span id).lookup a = s.lookup a := by
  simp [close_span, SpanSnapshot.lookup, lookup_filterKeyNe_ne s.spans a id hab]

lemma handle_get (l : SpanDumpLayer) (h : Heap) (e : Event) :
    (l.handle h e).get l.spans = cellStep (h.get l.spans) e := by
  cases e <;>
    simp [SpanDumpLayer.handle, cellStep, SpanDumpLayer.on_new_span,
      SpanDumpLayer.on_close, SpanDumpLayer.on_enter, SpanDumpLayer.on_exit,
      SpanDumpLayer.on_record, SpanDumpLayer.on_follows_from,
      SpanDumpLayer.on_event, SpanDumpLayer.on_id_change, Heap.get_set_self]

lemma run_get (l : SpanDumpLayer) (h : Heap) (evs : List Event) :
    (l.run h evs).get l.spans = evs.foldl cellStep (h.get l.spans) := by
  induction evs generalizing h with
  | nil => rfl
  | cons e evs ih =>
    simp only [SpanDumpLayer.run, List.foldl_cons]
    rw [← handle_get l h e]
    exact ih (l.handle h e)

lemma containsId_new_span_self (s : SpanSnapshot) (attrs : Attributes) (id : SpanId) :
    (s.new_span attrs id).containsId id = true := by
  simp [containsId, lookup_new_span_self]

lemma containsId_cellStep (s : SpanSnapshot) (e : Event) (id : SpanId)
    (hs : s.containsId id = true) (he : e ≠ Event.close id) :
    (cellStep s e).containsId id = true := by
  cases e with
  | newSpan attrs id2 =>
    by_cases hid : id = id2
    · subst hid
      simp [cellStep, containsId, lookup_new_span_self]
    · simpa [cellStep, containsId, lookup_new_span_ne s attrs id2 id hid] using hs
  | close id2 =>
    have hid : id ≠ id2 := fun hh => he (by rw [hh])
    simpa [cellStep, containsId, lookup_close_span_ne s id2 id hid] using hs
  | enter id2 => simpa [cellStep] using hs
  | exit id2 => simpa [cellStep] using hs
  | record id2 => simpa [cellStep] using hs
  | followsFrom id2 f2 => simpa [cellStep] using hs
  | fireEvent => simpa [cellStep] using hs
  | idChange o n => simpa [cellStep] using hs

lemma containsId_foldl (evs : List Event) (s : SpanSnapshot) (id : SpanId)
    (hs : s.containsId id = true) (he : ∀ e ∈ evs, e ≠ Event.close id) :
    (evs.foldl cellStep s).containsId id = true := by
  induction evs generalizing s with
  | nil => simpa using hs
  | cons e evs ih =>
    simp only [List.foldl_cons]
    exact ih (cellStep s e)
      (containsId_cellStep s e id hs (he e (by simp)))
      (fun e2 h2 => he e2 (by simp [h2]))

lemma not_containsId_cellStep (s : SpanSnapshot) (e : Event) (id : SpanId)
    (hs : s.containsId id = false) (he : ∀ attrs, e ≠ Event.newSpan attrs id) :
    (cellStep s e).containsId id = false := by
  cases e with
  | newSpan attrs id2 =>
    have hid : id ≠ id2 := fun hh => he attrs (by rw [hh])
    simpa [cellStep, containsId, lookup_new_span_ne s attrs id2 id hid] using hs
  | close id2 =>
    by_cases hid : id = id2
    · subst hid
      simp [cellStep, containsId, lookup_close_span_self]
    · simpa [cellStep, containsId, lookup_close_span_ne s id2 id hid] using hs
  | enter id2 => simpa [cellStep] using hs
  | exit id2 => simpa [cellStep] using hs
  | record id2 => simpa [cellStep] using hs
  | followsFrom id2 f2 => simpa [cellStep] using hs
  | fireEvent => simpa [cellStep] using hs
  | idChange o n => simpa [cellStep] using hs

lemma not_containsId_foldl (evs : List Event) (s : SpanSnapshot) (id : SpanId)
    (hs : s.containsId id = false)
    (he : ∀ e ∈ evs, ∀ attrs, e ≠ Event.newSpan attrs id) :
    (evs.foldl cellStep s).containsId id = false := by
  induction evs generalizing s with
  | nil => simpa using hs
  | cons e evs ih =>
    simp only [List.foldl_cons]
    exact ih (cellStep s e)
      (not_containsId_cellStep s e id hs (he e (by simp)))
      (fun e2 h2 => he e2 (by simp [h2]))

lemma lookup_cellStep_stable (s : SpanSnapshot) (e : Event) (id : SpanId)
    (r : SpanRecord) (hs : s.lookup id = some r)
    (hnew : ∀ attrs, e ≠ Event.newSpan attrs id) (hcl : e ≠ Event.close id) :
    (cellStep s e).lookup id = some r := by
  cases e with
  | newSpan attrs id2 =>
    have hid : id ≠ id2 := fun hh => hnew attrs (by rw [hh])
    rw [cellStep, lookup_new_span_ne s attrs id2 id hid]
    exact hs
  | close id2 =>
    have hid : id ≠ id2 := fun hh => hcl (by rw [hh])
    rw [cellStep, lookup_close_span_ne s id2 id hid]
    exact hs
  | enter id2 => simpa [cellStep] using hs
  | exit id2 => simpa [cellStep] using hs
  | record id2 => simpa [cellStep] using hs
  | followsFrom id2 f2 => simpa [cellStep] using hs
  | fireEvent => simpa [cellStep] using hs
  | idChange o n => simpa [cellStep] using hs

lemma lookup_foldl_stable (evs : List Event) (s : SpanSnapshot) (id : SpanId)
    (r : SpanRecord) (hs : s.lookup id = some r)
    (he : ∀ e ∈ evs, (∀ attrs, e ≠ Event.newSpan attrs id) ∧ e ≠ Event.close id) :
    (evs.foldl cellStep s).lookup id = some r := by
  induction evs generalizing s with
  | nil => simpa using hs
  | cons e evs ih =>
    simp only [List.foldl_cons]
    exact ih (cellStep s e)
      (lookup_cellStep_stable s e id r hs (he e (by simp)).1 (he e (by simp)).2)
      (fun e2 h2 => he e2 (by simp [h2]))

lemma on_new_span_get (l : SpanDumpLayer) (attrs : Attributes) (id : SpanId)
    (h : Heap) :
    (l.on_new_span attrs id h).get l.spans = (h.get l.spans).new_span attrs id := by
  simp [SpanDumpLayer.on_new_span, Heap.get_set_self]

lemma on_close_get (l : SpanDumpLayer) (id : SpanId) (h : Heap) :
    (l.on_close id h).get l.spans = (h.get l.spans).close_span id := by
  simp [SpanDumpLayer.on_close, Heap.get_set_self]

end HelperLemmas

/-- C1: after `on_new_span` for id X completes, every snapshot taken after any
further serialized sequence of lifecycle notifications containing no
`on_close(X)` contains a record with id X; visibility begins at creation (the
trace may contain enter/exit or any other events). -/
theorem creation_visibility (l : SpanDumpLayer) (h : Heap) (attrs : Attributes)
    (id : SpanId) (evs : List Event)
    (hno : ∀ e ∈ evs, e ≠ Event.close id) :
    (l.snapshot (l.run (l.on_new_span attrs id h) evs)).containsId id = true := by
  simp only [SpanDumpLayer.snapshot, SpanSnapshot.clone, run_get, on_new_span_get]
  exact containsId_foldl evs _ id
    (containsId_new_span_self (h.get l.spans) attrs id) hno

/-- Concrete instance of `creation_visibility`: create span 1, then events
close(2) and enter(1); the snapshot still contains id 1. -/
theorem creation_visibility_witness :
    (∀ e ∈ [Event.close 2, Event.enter 1], e ≠ Event.close 1) ∧
    ((SpanDumpLayer.mk 0).snapshot ((SpanDumpLayer.mk 0).run
      ((SpanDumpLayer.mk 0).on_new_span ⟨none, ⟨"t"⟩⟩ 1 Heap.empty)
      [Event.close 2, Event.enter 1])).containsId 1 = true :=
  ⟨by decide, creation_visibility ⟨0⟩ Heap.empty ⟨none, ⟨"t"⟩⟩ 1
    [Event.close 2, Event.enter 1] (by decide)⟩

/-- C2: after `on_close(X)` completes, every snapshot taken after any further
serialized sequence of notifications containing no creation reusing X does not
contain a record with id X. -/
theorem closure_removal (l : SpanDumpLayer) (h : Heap) (id : SpanId)
    (evs : List Event)
    (hno : ∀ e ∈ evs, ∀ attrs, e ≠ Event.newSpan attrs id) :
    (l.snapshot (l.run (l.on_close id h) evs)).containsId id = false := by
  simp only [SpanDumpLayer.snapshot, SpanSnapshot.clone, run_get, on_close_get]
  refine not_containsId_foldl evs _ id ?_ hno
  simp [SpanSnapshot.containsId, lookup_close_span_self]

/-- Concrete instance of `closure_removal`: close span 1, then create span 2
and enter span 1; the snapshot does not contain id 1. -/
theorem closure_removal_witness :
    (∀ e ∈ [Event.newSpan ⟨none, ⟨"t"⟩⟩ 2, Event.enter 1],
      ∀ attrs, e ≠ Event.newSpan attrs 1) ∧
    ((SpanDumpLayer.mk 0).snapshot ((SpanDumpLayer.mk 0).run
      ((SpanDumpLayer.mk 0).on_close 1
        ((SpanDumpLayer.mk 0).on_new_span ⟨none, ⟨"t"⟩⟩ 1 Heap.empty))
      [Event.newSpan ⟨none, ⟨"t"⟩⟩ 2, Event.enter 1])).containsId 1 = false :=
  ⟨fun e he attrs => by
      fin_cases he <;> simp,
    closure_removal ⟨0⟩
      ((SpanDumpLayer.mk 0).on_new_span ⟨none, ⟨"t"⟩⟩ 1 Heap.empty) 1
      [Event.newSpan ⟨none, ⟨"t"⟩⟩ 2, Event.enter 1]
      (fun e he attrs => by fin_cases he <;> simp)⟩

/-- C3: a span Y created with attributes whose parent is X keeps a stored
record with parent exactly X across any further notifications that neither
close Y nor recreate Y — in particular across `on_close(X)`, so the parent
field is unaffected by whether X is still open when queried. -/
theorem parent_linkage (l : SpanDumpLayer) (h : Heap) (attrs : Attributes)
    (yid xid : SpanId) (evs : List Event)
    (hp : attrs.parent = some xid)
    (hno : ∀ e ∈ evs, (∀ a, e ≠ Event.newSpan a yid) ∧ e ≠ Event.close yid) :
    (l.snapshot (l.run (l.on_new_span attrs yid h) evs)).lookup yid =
      some ⟨yid, some xid, attrs.metadata⟩ := by
  simp only [SpanDumpLayer.snapshot, SpanSnapshot.clone, run_get, on_new_span_get]
  refine lookup_foldl_stable evs _ yid _ ?_ hno
  rw [lookup_new_span_self, hp]

/-- Concrete instance of `parent_linkage`: create span 2 with parent 1, then
close the parent span 1; span 2 still records parent 1. -/
theorem parent_linkage_witness :
    (⟨some 1, ⟨"t"⟩⟩ : Attributes).parent = some 1 ∧
    (∀ e ∈ [Event.close 1],
      (∀ a, e ≠ Event.newSpan a 2) ∧ e ≠ Event.close 2) ∧
    ((SpanDumpLayer.mk 0).snapshot ((SpanDumpLayer.mk 0).run
      ((SpanDumpLayer.mk 0).on_new_span ⟨some 1, ⟨"t"⟩⟩ 2 Heap.empty)
      [Event.close 1])).lookup 2 = some ⟨2, some 1, ⟨"t"⟩⟩ :=
  ⟨rfl,
    fun e he => by
      rw [List.mem_singleton] at he
      subst he
      exact ⟨fun a => by simp, by simp⟩,
    parent_linkage ⟨0⟩ Heap.empty ⟨some 1, ⟨"t"⟩⟩ 2 1 [Event.close 1]
      rfl (fun e he => by
        rw [List.mem_singleton] at he
        subst he
        exact ⟨fun a => by simp, by simp⟩)⟩

section WorldLemmas

lemma runWorld_taken_append (l : SpanDumpLayer) (acts : List Action) (w : World) :
    ∃ rest, (l.runWorld w acts).taken = w.taken ++ rest := by
  induction acts generalizing w with
  | nil => exact ⟨[], by simp [SpanDumpLayer.runWorld]⟩
  | cons a acts ih =>
    obtain ⟨rest, hrest⟩ := ih (l.stepWorld w a)
    cases a with
    | notify e =>
      refine ⟨rest, ?_⟩
      simpa [SpanDumpLayer.runWorld, SpanDumpLayer.stepWorld] using hrest
    | takeSnapshot =>
      refine ⟨l.snapshot w.heap :: rest, ?_⟩
      simpa [SpanDumpLayer.runWorld, SpanDumpLayer.stepWorld] using hrest

end WorldLemmas

/-- C4: a snapshot already taken and retained by a caller is unchanged by any
sequence of subsequent creates, closes (and any other actions): entry `i` of
the retained list is exactly what it was when taken. -/
theorem snapshot_isolation (l : SpanDumpLayer) (w : World) (acts : List Action)
    (i : Nat) (hi : i < w.taken.length) :
    (l.runWorld w acts).taken[i]? = w.taken[i]? := by
  obtain ⟨rest, hrest⟩ := runWorld_taken_append l acts w
  rw [hrest, List.getElem?_append, if_pos hi]

/-- Concrete instance of `snapshot_isolation`: a retained snapshot holding
span 1 is unchanged after a subsequent create of span 2 and close of span 1. -/
theorem snapshot_isolation_witness :
    0 < [SpanSnapshot.mk [(1, ⟨1, none, ⟨"t"⟩⟩)]].length ∧
    ((SpanDumpLayer.mk 0).runWorld
      ⟨Heap.empty, [SpanSnapshot.mk [(1, ⟨1, none, ⟨"t"⟩⟩)]]⟩
      [Action.notify (Event.newSpan ⟨none, ⟨"u"⟩⟩ 2),
       Action.notify (Event.close 1)]).taken[0]? =
      [SpanSnapshot.mk [(1, ⟨1, none, ⟨"t"⟩⟩)]][0]? :=
  ⟨by decide,
    snapshot_isolation ⟨0⟩ ⟨Heap.empty, [SpanSnapshot.mk [(1, ⟨1, none, ⟨"t"⟩⟩)]]⟩
      [Action.notify (Event.newSpan ⟨none, ⟨"u"⟩⟩ 2),
       Action.notify (Event.close 1)] 0 (by decide)⟩

/-- C5: `on_enter`, `on_exit`, `on_record`, `on_follows_from`, `on_event`
and `on_id_change` are total functions that leave the heap — hence the stored
span map — exactly unchanged, and the serialized sequence create(X),
enter(X), exit(X), enter(X), exit(X) leaves X present in the snapshot taken
after every prefix. -/
theorem noop_hooks (l : SpanDumpLayer) (h : Heap) (id a b : SpanId)
    (attrs : Attributes) :
    l.on_enter id h = h ∧ l.on_exit id h = h ∧ l.on_record id h = h ∧
    l.on_follows_from a b h = h ∧ l.on_event h = h ∧ l.on_id_change a b h = h ∧
    (l.snapshot (l.run (l.on_new_span attrs id h) [])).containsId id = true ∧
    (l.snapshot (l.run (l.on_new_span attrs id h)
      [Event.enter id])).containsId id = true ∧
    (l.snapshot (l.run (l.on_new_span attrs id h)
      [Event.enter id, Event.exit id])).containsId id = true ∧
    (l.snapshot (l.run (l.on_new_span attrs id h)
      [Event.enter id, Event.exit id, Event.enter id])).containsId id = true ∧
    (l.snapshot (l.run (l.on_new_span attrs id h)
      [Event.enter id, Event.exit id, Event.enter id,
       Event.exit id])).containsId id = true := by
  refine ⟨rfl, rfl, rfl, rfl, rfl, rfl, ?_, ?_, ?_, ?_, ?_⟩ <;>
    simp [SpanDumpLayer.snapshot, SpanSnapshot.clone, run_get, on_new_span_get,
      cellStep, containsId_new_span_self]

section MoreHelperLemmas

open SpanSnapshot

lemma countP_filterKeyNe (xs : List (SpanId × SpanRecord)) (id : SpanId) :
    (xs.filter (fun p => p.1 != id)).countP (fun p => p.1 == id) = 0 := by
  rw [List.countP_eq_zero]
  intro p hp
  have hne : (p.1 != id) = true := (List.mem_filter.mp hp).2
  simpa using hne

lemma keyNe_of_lookup_none (xs : List (SpanId × SpanRecord)) (id : SpanId)
    (h : xs.lookup id = none) : ∀ p ∈ xs, p.1 ≠ id := by
  induction xs with
  | nil => intro p hp; cases hp
  | cons x xs ih =>
    obtain ⟨k, v⟩ := x
    intro p hp
    by_cases hk : id = k
    · exfalso
      rw [List.lookup_cons] at h
      simp [hk] at h
    · rcases List.mem_cons.mp hp with hph | hpt
      · subst hph
        exact fun hh => hk (hh.symm)
      · rw [List.lookup_cons] at h
        have hk2 : (id == k) = false := by simp [hk]
        rw [hk2] at h
        exact ih h p hpt

end MoreHelperLemmas

/-- C6: when id X is already present, a second `new_span` with the same id X
is a total operation that replaces the existing record with the new one, and
the resulting map stores exactly one entry under X. -/
theorem duplicate_create_overwrites (s : SpanSnapshot) (attrs : Attributes)
    (id : SpanId) (_hpres : s.containsId id = true) :
    (s.new_span attrs id).lookup id = some ⟨id, attrs.parent, attrs.metadata⟩ ∧
    (s.new_span attrs id).countKey id = 1 := by
  refine ⟨lookup_new_span_self s attrs id, ?_⟩
  simp [SpanSnapshot.countKey, SpanSnapshot.new_span, List.countP_cons,
    countP_filterKeyNe]

/-- Concrete instance of `duplicate_create_overwrites`: re-creating span 1
over an existing record replaces it, leaving one entry. -/
theorem duplicate_create_overwrites_witness :
    (SpanSnapshot.mk [(1, ⟨1, none, ⟨"old"⟩⟩)]).containsId 1 = true ∧
    ((SpanSnapshot.mk [(1, ⟨1, none, ⟨"old"⟩⟩)]).new_span ⟨none, ⟨"new"⟩⟩ 1).lookup 1 =
      some ⟨1, none, ⟨"new"⟩⟩ ∧
    ((SpanSnapshot.mk [(1, ⟨1, none, ⟨"old"⟩⟩)]).new_span ⟨none, ⟨"new"⟩⟩ 1).countKey 1 = 1 :=
  ⟨by decide,
    duplicate_create_overwrites ⟨[(1, ⟨1, none, ⟨"old"⟩⟩)]⟩ ⟨none, ⟨"new"⟩⟩ 1
      (by decide)⟩

/-- C7: closing an id that is absent from the registry is a total silent
no-op: the guarded snapshot and the whole heap are exactly unchanged. -/
theorem close_absent_noop (l : SpanDumpLayer) (h : Heap) (id : SpanId)
    (habs : (h.get l.spans).containsId id = false) :
    (h.get l.spans).close_span id = h.get l.spans ∧ l.on_close id h = h := by
  have hnone : (h.get l.spans).lookup id = none := by
    cases hx : (h.get l.spans).lookup id with
    | none => rfl
    | some r =>
      rw [SpanSnapshot.containsId, hx] at habs
      simp at habs
  have hkeys := keyNe_of_lookup_none (h.get l.spans).spans id hnone
  have hfilter : (h.get l.spans).spans.filter (fun p => p.1 != id) =
      (h.get l.spans).spans := by
    rw [List.filter_eq_self]
    intro p hp
    simpa using hkeys p hp
  have hclose : (h.get l.spans).close_span id = h.get l.spans := by
    cases hcell : h.get l.spans with
    | mk spans =>
      rw [SpanSnapshot.close_span]
      rw [hcell] at hfilter
      simpa using hfilter
  refine ⟨hclose, ?_⟩
  funext b
  rw [SpanDumpLayer.on_close, hclose]
  show Heap.set h l.spans (h.get l.spans) b = h b
  rw [Heap.set]
  by_cases hb : b = l.spans
  · simp [hb, Heap.get]
  · simp [hb]

/-- Concrete instance of `close_absent_noop`: closing id 1 on an empty
registry changes nothing. -/
theorem close_absent_noop_witness :
    ((Heap.empty.get 0).containsId 1 = false) ∧
    ((Heap.empty.get 0).close_span 1 = Heap.empty.get 0 ∧
      (SpanDumpLayer.mk 0).on_close 1 Heap.empty = Heap.empty) :=
  ⟨by decide, close_absent_noop ⟨0⟩ Heap.empty 1 (by decide)⟩

/-- C8: a layer handle and its clone alias the same underlying store: a span
created through the clone is visible in a snapshot taken through the
original, and a close performed through the original is visible in a snapshot
taken through the clone. -/
theorem clone_shares_store (l : SpanDumpLayer) (h : Heap) (attrs : Attributes)
    (id : SpanId) :
    (l.snapshot (l.clone.on_new_span attrs id h)).containsId id = true ∧
    (l.clone.snapshot
      (l.on_close id (l.clone.on_new_span attrs id h))).containsId id = false := by
  have hcl : l.clone = l := rfl
  constructor
  · rw [hcl]
    simp [SpanDumpLayer.snapshot, SpanSnapshot.clone, on_new_span_get,
      containsId_new_span_self]
  · rw [hcl]
    simp [SpanDumpLayer.snapshot, SpanSnapshot.clone, on_new_span_get,
      on_close_get, SpanSnapshot.containsId, lookup_close_span_self]

/-- C9: every snapshot reachable from the empty snapshot by a sequence of
`new_span` and `close_span` operations is well-formed: each stored record's
`id` field equals its map key, and keys are unique. -/
theorem reachable_wf (ops : List SpanOp) :
    (SpanSnapshot.runOps SpanSnapshot.mkDefault ops).WF := by
  have hstep : ∀ (s : SpanSnapshot) (op : SpanOp), s.WF → (s.applyOp op).WF := by
    intro s op hs
    obtain ⟨hid, hnd⟩ := hs
    cases op with
    | create attrs id =>
      constructor
      · intro p hp
        rcases List.mem_cons.mp hp with hph | hpt
        · subst hph; rfl
        · exact hid p (List.mem_of_mem_filter hpt)
      · rw [SpanSnapshot.applyOp, SpanSnapshot.new_span]
        simp only [List.map_cons, List.nodup_cons]
        constructor
        · intro hmem
          obtain ⟨p, hp, hp1⟩ := List.mem_map.mp hmem
          have hne : (p.1 != id) = true := (List.mem_filter.mp hp).2
          rw [hp1] at hne
          simp at hne
        · exact ((List.filter_sublist s.spans).map Prod.fst).nodup hnd
    | close id =>
      constructor
      · intro p hp
        exact hid p (List.mem_of_mem_filter hp)
      · exact ((List.filter_sublist s.spans).map Prod.fst).nodup hnd
  have hrun : ∀ (ops : List SpanOp) (s : SpanSnapshot), s.WF →
      (SpanSnapshot.runOps s ops).WF := by
    intro ops
    induction ops with
    | nil => intro s hs; simpa [SpanSnapshot.runOps] using hs
    | cons op ops ih =>
      intro s hs
      simpa [SpanSnapshot.runOps] using ih (s.applyOp op) (hstep s op hs)
  refine hrun ops SpanSnapshot.mkDefault ?_
  simp [SpanSnapshot.WF, SpanSnapshot.mkDefault]

/-- C10: `dump_text` is a pure no-op: it prints nothing and leaves the
snapshot's contents exactly unchanged. -/
theorem dump_text_noop (s : SpanSnapshot) :
    s.dump_text = (s, ([] : List String)) := rfl

end TracingSpanDump
